import Mathlib

/-
  Verification of the sales/stock core of the Koeka-Shop POS system.

  The embedding follows the Python source:
    core/products/management.py   (ProductManager: stock ledger)
    core/sales/transaction.py     (TransactionManager: sale builder)
    core/sales/cash_management.py (CashManager: daily cash / reconciliation)

  Money is modelled with rationals, stock counts with integers, and the
  SQL tables as key-indexed maps plus an append-only movement list.
-/

namespace KoekaShop

/-- Product row, mirroring the `Product` dataclass of
core/products/management.py (fields the core logic reads). -/
structure Product where
  name : String
  barcode : Option String
  costPrice : ℚ
  sellPrice : ℚ
  currentStock : ℤ
  minStock : ℤ
  vatRate : ℚ
  vatInclusive : Bool
  deriving Repr, DecidableEq

/-- Row of the stock_movements table, as written by
ProductManager._log_stock_movement. -/
structure StockMovement where
  productId : ℕ
  movementType : String
  quantityChange : ℤ
  previousStock : ℤ
  newStock : ℤ
  userId : ℕ
  reason : String
  referenceId : Option ℕ
  deriving Repr, DecidableEq

/-- State of the product side of the database: the products table keyed by
id, and the append-only stock_movements table. -/
structure PState where
  products : ℕ → Option Product
  movements : List StockMovement

/-- ProductManager.get_product_by_id: SELECT the row with the given id. -/
def get_product_by_id (s : PState) (pid : ℕ) : Option Product :=
  s.products pid

/-- ProductManager.adjust_stock: fetch the product (False when absent),
reject a negative resulting stock by raising, otherwise write the new
stock and append one movement record. -/
def adjust_stock (s : PState) (pid : ℕ) (quantityChange : ℤ) (movementType : String)
    (userId : ℕ) (reason : String) : PState × Except String Bool :=
  match s.products pid with
  | none => (s, Except.ok false)
  | some product =>
    let previousStock := product.currentStock
    let newStock := previousStock + quantityChange
    if newStock < 0 then
      (s, Except.error "Cannot reduce stock below zero")
    else
      ({ products := fun j => if j = pid then
             some { product with currentStock := newStock }
           else s.products j,
         movements := s.movements ++
           [{ productId := pid, movementType := movementType,
              quantityChange := quantityChange, previousStock := previousStock,
              newStock := newStock, userId := userId, reason := reason,
              referenceId := none }] },
       Except.ok true)

/-- ProductManager.reduce_stock_for_sale: fetch the product (False when
absent), raise when the available stock is below the requested quantity,
otherwise write the reduced stock and append one movement record that
references the sale. -/
def reduce_stock_for_sale (s : PState) (pid : ℕ) (quantity : ℤ) (saleId : ℕ)
    (userId : ℕ) : PState × Except String Bool :=
  match s.products pid with
  | none => (s, Except.ok false)
  | some product =>
    if product.currentStock < quantity then
      (s, Except.error "Insufficient stock")
    else
      let previousStock := product.currentStock
      let newStock := previousStock - quantity
      ({ products := fun j => if j = pid then
             some { product with currentStock := newStock }
           else s.products j,
         movements := s.movements ++
           [{ productId := pid, movementType := "sale",
              quantityChange := -quantity, previousStock := previousStock,
              newStock := newStock, userId := userId,
              reason := "Sale transaction", referenceId := some saleId }] },
       Except.ok true)

/-- One stock-ledger operation (the two mutators of ProductManager). -/
inductive LedgerOp where
  | adjust (pid : ℕ) (quantityChange : ℤ) (movementType : String)
      (userId : ℕ) (reason : String)
  | reduceForSale (pid : ℕ) (quantity : ℤ) (saleId : ℕ) (userId : ℕ)

/-- Apply one ledger operation, keeping the post-state even when the
operation reports a failure (a Python exception leaves the database as it
was at raise time). -/
def applyLedgerOp (s : PState) : LedgerOp → PState × Except String Bool
  | .adjust pid qc mt uid reason => adjust_stock s pid qc mt uid reason
  | .reduceForSale pid qty saleId uid => reduce_stock_for_sale s pid qty saleId uid

/-- Run a sequence of ledger operations, threading the state. -/
def runOps (s : PState) : List LedgerOp → PState
  | [] => s
  | op :: rest => runOps (applyLedgerOp s op).1 rest

/-- Every product present in the table has non-negative stock. -/
def StockInv (s : PState) : Prop :=
  ∀ pid p, s.products pid = some p → 0 ≤ p.currentStock

/-- A movement record is internally consistent. -/
def MovOk (m : StockMovement) : Prop :=
  m.newStock = m.previousStock + m.quantityChange ∧ 0 ≤ m.newStock

/-- Every movement record in the log is internally consistent. -/
def MovInv (s : PState) : Prop :=
  ∀ m ∈ s.movements, MovOk m

theorem adjust_stock_stockInv (s : PState) (pid : ℕ) (qc : ℤ) (mt : String)
    (uid : ℕ) (reason : String) (h : StockInv s) :
    StockInv (adjust_stock s pid qc mt uid reason).1 := by
  unfold adjust_stock
  cases hp : s.products pid with
  | none => simpa using h
  | some product =>
    by_cases hneg : product.currentStock + qc < 0
    · simpa [hp, hneg] using h
    · intro j p hj
      simp only [hp, if_neg hneg] at hj
      by_cases hjp : j = pid
      · subst hjp
        simp only [if_true, eq_self_iff_true, Option.some.injEq] at hj
        subst hj
        exact not_lt.mp hneg
      · exact h j p (by simpa [hjp] using hj)

theorem reduce_stock_stockInv (s : PState) (pid : ℕ) (qty : ℤ) (saleId uid : ℕ)
    (h : StockInv s) :
    StockInv (reduce_stock_for_sale s pid qty saleId uid).1 := by
  unfold reduce_stock_for_sale
  cases hp : s.products pid with
  | none => simpa using h
  | some product =>
    by_cases hlt : product.currentStock < qty
    · simpa [hp, hlt] using h
    · intro j p hj
      simp only [hp, if_neg hlt] at hj
      by_cases hjp : j = pid
      · subst hjp
        simp only [if_true, eq_self_iff_true, Option.some.injEq] at hj
        subst hj
        show (0 : ℤ) ≤ product.currentStock - qty
        omega
      · exact h j p (by simpa [hjp] using hj)

theorem applyLedgerOp_stockInv (s : PState) (op : LedgerOp) (h : StockInv s) :
    StockInv (applyLedgerOp s op).1 := by
  cases op with
  | adjust pid qc mt uid reason => exact adjust_stock_stockInv s pid qc mt uid reason h
  | reduceForSale pid qty saleId uid => exact reduce_stock_stockInv s pid qty saleId uid h

theorem runOps_stockInv (s : PState) (ops : List LedgerOp) (h : StockInv s) :
    StockInv (runOps s ops) := by
  induction ops generalizing s with
  | nil => exact h
  | cons op rest ih => exact ih _ (applyLedgerOp_stockInv s op h)

/-- C1: starting from a state where every stock is non-negative, any
sequence of stock-ledger operations keeps every stock non-negative, and an
operation whose delta would drive a stock below zero raises instead of
writing. -/
theorem C1_stock_never_negative :
    (∀ (s : PState) (ops : List LedgerOp), StockInv s → StockInv (runOps s ops)) ∧
    (∀ (s : PState) (pid : ℕ) (qc : ℤ) (mt : String) (uid : ℕ) (reason : String)
        (p : Product), s.products pid = some p → p.currentStock + qc < 0 →
      adjust_stock s pid qc mt uid reason =
        (s, Except.error "Cannot reduce stock below zero")) ∧
    (∀ (s : PState) (pid : ℕ) (qty : ℤ) (saleId uid : ℕ) (p : Product),
        s.products pid = some p → p.currentStock < qty →
      reduce_stock_for_sale s pid qty saleId uid =
        (s, Except.error "Insufficient stock")) := by
  refine ⟨runOps_stockInv, ?_, ?_⟩
  · intro s pid qc mt uid reason p hp hneg
    unfold adjust_stock
    simp [hp, hneg]
  · intro s pid qty saleId uid p hp hlt
    unfold reduce_stock_for_sale
    simp [hp, hlt]

/-- A concrete shop state used by witnesses: product 1 with stock 10. -/
def witProduct : Product :=
  { name := "Coke", barcode := none, costPrice := 5, sellPrice := 8,
    currentStock := 10, minStock := 2, vatRate := 15, vatInclusive := true }

/-- Witness state: product id 1 exists with stock 10, empty movement log. -/
def witState : PState :=
  { products := fun pid => if pid = 1 then some witProduct else none,
    movements := [] }

theorem witState_stockInv : StockInv witState := by
  intro pid p hp
  by_cases h1 : pid = 1
  · subst h1
    have hp2 : witProduct = p := by simpa [witState] using hp
    rw [← hp2]
    decide
  · simp [witState, h1] at hp

/-- C1 witness: the invariant theorem applied to a concrete state and a
concrete operation sequence (an addition of 5 then a sale of 12). -/
theorem C1_stock_never_negative_witness :
    StockInv witState ∧
    StockInv (runOps witState
      [LedgerOp.adjust 1 5 "addition" 1 "restock",
       LedgerOp.reduceForSale 1 12 7 1]) :=
  ⟨witState_stockInv, C1_stock_never_negative.1 witState _ witState_stockInv⟩

theorem adjust_stock_movInv (s : PState) (pid : ℕ) (qc : ℤ) (mt : String)
    (uid : ℕ) (reason : String) (h : MovInv s) :
    MovInv (adjust_stock s pid qc mt uid reason).1 := by
  unfold adjust_stock
  cases hp : s.products pid with
  | none => simpa using h
  | some product =>
    by_cases hneg : product.currentStock + qc < 0
    · simpa [hneg] using h
    · intro m hm
      simp only [if_neg hneg, List.mem_append, List.mem_singleton] at hm
      rcases hm with hm | hm
      · exact h m hm
      · subst hm
        exact ⟨rfl, not_lt.mp hneg⟩

theorem reduce_stock_movInv (s : PState) (pid : ℕ) (qty : ℤ) (saleId uid : ℕ)
    (h : MovInv s) :
    MovInv (reduce_stock_for_sale s pid qty saleId uid).1 := by
  unfold reduce_stock_for_sale
  cases hp : s.products pid with
  | none => simpa using h
  | some product =>
    by_cases hlt : product.currentStock < qty
    · simpa [hlt] using h
    · intro m hm
      simp only [if_neg hlt, List.mem_append, List.mem_singleton] at hm
      rcases hm with hm | hm
      · exact h m hm
      · subst hm
        constructor
        · show product.currentStock - qty = product.currentStock + -qty
          ring
        · show (0 : ℤ) ≤ product.currentStock - qty
          omega

theorem applyLedgerOp_movInv (s : PState) (op : LedgerOp) (h : MovInv s) :
    MovInv (applyLedgerOp s op).1 := by
  cases op with
  | adjust pid qc mt uid reason => exact adjust_stock_movInv s pid qc mt uid reason h
  | reduceForSale pid qty saleId uid => exact reduce_stock_movInv s pid qty saleId uid h

theorem runOps_movInv (s : PState) (ops : List LedgerOp) (h : MovInv s) :
    MovInv (runOps s ops) := by
  induction ops generalizing s with
  | nil => exact h
  | cons op rest ih => exact ih _ (applyLedgerOp_movInv s op h)

/-- C7: a successful ledger mutation appends exactly one movement record,
that record satisfies resulting = previous + delta with resulting
non-negative, an unsuccessful operation appends nothing and changes
nothing, and consistency of the whole log is preserved by any operation
sequence. -/
theorem C7_movement_log_consistent :
    (∀ (s : PState) (op : LedgerOp), (applyLedgerOp s op).2 = Except.ok true →
      ∃ m, (applyLedgerOp s op).1.movements = s.movements ++ [m] ∧ MovOk m) ∧
    (∀ (s : PState) (op : LedgerOp), (applyLedgerOp s op).2 ≠ Except.ok true →
      (applyLedgerOp s op).1 = s) ∧
    (∀ (s : PState) (ops : List LedgerOp), MovInv s → MovInv (runOps s ops)) := by
  refine ⟨?_, ?_, fun s ops h => runOps_movInv s ops h⟩
  · intro s op hok
    cases op with
    | adjust pid qc mt uid reason =>
      cases hp : s.products pid with
      | none => simp [applyLedgerOp, adjust_stock, hp] at hok
      | some product =>
        by_cases hneg : product.currentStock + qc < 0
        · simp [applyLedgerOp, adjust_stock, hp, hneg] at hok
        · exact ⟨{ productId := pid, movementType := mt, quantityChange := qc,
                   previousStock := product.currentStock,
                   newStock := product.currentStock + qc, userId := uid,
                   reason := reason, referenceId := none },
                 by simp [applyLedgerOp, adjust_stock, hp, hneg],
                 rfl, not_lt.mp hneg⟩
    | reduceForSale pid qty saleId uid =>
      cases hp : s.products pid with
      | none => simp [applyLedgerOp, reduce_stock_for_sale, hp] at hok
      | some product =>
        by_cases hlt : product.currentStock < qty
        · simp [applyLedgerOp, reduce_stock_for_sale, hp, hlt] at hok
        · refine ⟨{ productId := pid, movementType := "sale", quantityChange := -qty,
                    previousStock := product.currentStock,
                    newStock := product.currentStock - qty, userId := uid,
                    reason := "Sale transaction", referenceId := some saleId },
                  by simp [applyLedgerOp, reduce_stock_for_sale, hp, hlt], ?_, ?_⟩
          · show product.currentStock - qty = product.currentStock + -qty
            ring
          · show (0 : ℤ) ≤ product.currentStock - qty
            omega
  · intro s op hne
    cases op with
    | adjust pid qc mt uid reason =>
      cases hp : s.products pid with
      | none => simp [applyLedgerOp, adjust_stock, hp]
      | some product =>
        by_cases hneg : product.currentStock + qc < 0
        · simp [applyLedgerOp, adjust_stock, hp, hneg]
        · exact absurd (by simp [applyLedgerOp, adjust_stock, hp, hneg]) hne
    | reduceForSale pid qty saleId uid =>
      cases hp : s.products pid with
      | none => simp [applyLedgerOp, reduce_stock_for_sale, hp]
      | some product =>
        by_cases hlt : product.currentStock < qty
        · simp [applyLedgerOp, reduce_stock_for_sale, hp, hlt]
        · exact absurd (by simp [applyLedgerOp, reduce_stock_for_sale, hp, hlt]) hne

/-- C7 witness: a successful concrete adjustment appends one consistent
movement record. -/
theorem C7_movement_log_consistent_witness :
    (applyLedgerOp witState (LedgerOp.adjust 1 5 "addition" 1 "restock")).2 =
      Except.ok true ∧
    ∃ m, (applyLedgerOp witState
        (LedgerOp.adjust 1 5 "addition" 1 "restock")).1.movements =
      witState.movements ++ [m] ∧ MovOk m :=
  ⟨rfl, C7_movement_log_consistent.1 witState _ rfl⟩

/-- C10: on a product id absent from the catalog both mutators return
False without raising, and leave the state (stocks and movement log)
untouched. -/
theorem C10_missing_product_returns_false :
    ∀ (s : PState) (pid : ℕ), s.products pid = none →
      (∀ (qc : ℤ) (mt : String) (uid : ℕ) (reason : String),
        adjust_stock s pid qc mt uid reason = (s, Except.ok false)) ∧
      (∀ (qty : ℤ) (saleId uid : ℕ),
        reduce_stock_for_sale s pid qty saleId uid = (s, Except.ok false)) := by
  intro s pid hp
  constructor
  · intro qc mt uid reason
    unfold adjust_stock
    simp [hp]
  · intro qty saleId uid
    unfold reduce_stock_for_sale
    simp [hp]

/-- C10 witness: product id 2 is absent from the witness state; both
operations return False and change nothing. -/
theorem C10_missing_product_returns_false_witness :
    witState.products 2 = none ∧
    adjust_stock witState 2 (-3) "adjustment" 1 "shrink" =
      (witState, Except.ok false) ∧
    reduce_stock_for_sale witState 2 3 9 1 = (witState, Except.ok false) :=
  ⟨rfl, (C10_missing_product_returns_false witState 2 rfl).1 (-3) "adjustment" 1 "shrink",
    (C10_missing_product_returns_false witState 2 rfl).2 3 9 1⟩

/-- Line item of a sale, mirroring the `SaleItem` dataclass of
core/sales/transaction.py. -/
structure SaleItem where
  productId : ℕ
  productName : String
  quantity : ℤ
  unitPrice : ℚ
  totalPrice : ℚ
  vatRate : ℚ
  deriving Repr, DecidableEq

/-- SaleItem.calculate_vat_amount: VAT carried by the line, back-calculated
from the VAT-inclusive line total; zero for a non-positive rate. -/
def SaleItem.calculate_vat_amount (it : SaleItem) : ℚ :=
  if 0 < it.vatRate then it.totalPrice * (it.vatRate / (100 + it.vatRate)) else 0

/-- Sale record, mirroring the `Sale` dataclass of
core/sales/transaction.py (the audit timestamp is a logical clock). -/
structure Sale where
  userId : ℕ
  items : List SaleItem
  paymentMethod : String := "cash"
  cashAmount : ℚ := 0
  cardAmount : ℚ := 0
  changeGiven : ℚ := 0
  voided : Bool := false
  voidedBy : Option ℕ := none
  voidedAt : Option ℕ := none
  voidReason : String := ""
  deriving Repr, DecidableEq

/-- Sale.subtotal: sum of line totals net of their VAT share. -/
def Sale.subtotal (s : Sale) : ℚ :=
  (s.items.map (fun it => it.totalPrice - it.calculate_vat_amount)).sum

/-- Sale.vat_amount: sum of the VAT shares of the lines. -/
def Sale.vat_amount (s : Sale) : ℚ :=
  (s.items.map (fun it => it.calculate_vat_amount)).sum

/-- Sale.total_amount: sum of the line totals. -/
def Sale.total_amount (s : Sale) : ℚ :=
  (s.items.map (fun it => it.totalPrice)).sum

/-- State of the TransactionManager together with the sales side of the
database: the product state, the persisted sales keyed by id, the next
sale id the database will assign, the builder slot for the open sale, and
a logical clock used for void timestamps. -/
structure TState where
  pstate : PState
  sales : ℕ → Option Sale
  nextSaleId : ℕ
  currentSale : Option Sale
  now : ℕ

/-- TransactionManager.start_new_sale: put a fresh empty sale in the
builder slot. -/
def start_new_sale (t : TState) (uid : ℕ) : TState :=
  { t with currentSale := some { userId := uid, items := [] } }

/-- Replace the first line item with the given product id, as the source
mutates the first matching item found by its linear scan. -/
def updateFirstItem (pid : ℕ) (f : SaleItem → SaleItem) :
    List SaleItem → List SaleItem
  | [] => []
  | it :: rest =>
    if it.productId = pid then f it :: rest
    else it :: updateFirstItem pid f rest

/-- TransactionManager.add_item_to_sale: raise without an active sale,
raise on an unknown product, check requested (and, for an existing line,
combined) quantity against live stock, then merge into the existing line
or append a snapshot line. -/
def add_item_to_sale (t : TState) (pid : ℕ) (quantity : ℤ) :
    TState × Except String Bool :=
  match t.currentSale with
  | none => (t, Except.error "No active sale. Start a new sale first.")
  | some sale =>
    match get_product_by_id t.pstate pid with
    | none => (t, Except.error "Product not found")
    | some product =>
      if product.currentStock < quantity then
        (t, Except.error "Insufficient stock")
      else
        match sale.items.find? (fun it => it.productId = pid) with
        | some existingItem =>
          let newQuantity := existingItem.quantity + quantity
          if product.currentStock < newQuantity then
            (t, Except.error "Insufficient stock")
          else
            ({ t with currentSale := some { sale with
                 items := updateFirstItem pid (fun it =>
                   { it with
                     quantity := newQuantity,
                     totalPrice := it.unitPrice * (newQuantity : ℚ) }) sale.items } },
             Except.ok true)
        | none =>
          ({ t with currentSale := some { sale with
               items := sale.items ++
                 [{ productId := pid, productName := product.name,
                    quantity := quantity, unitPrice := product.sellPrice,
                    totalPrice := product.sellPrice * (quantity : ℚ),
                    vatRate := if product.vatInclusive then product.vatRate else 0 }] } },
           Except.ok true)

/-- TransactionManager.set_payment_method: record the method and tendered
amounts, then compute the change for cash and mixed payments. -/
def set_payment_method (t : TState) (method : String) (cashAmount cardAmount : ℚ) :
    TState × Except String Bool :=
  match t.currentSale with
  | none => (t, Except.ok false)
  | some sale =>
    if method = "cash" ∨ method = "card" ∨ method = "mixed" then
      let sale1 := { sale with
        paymentMethod := method,
        cashAmount := cashAmount, cardAmount := cardAmount }
      let changeGiven : ℚ :=
        if method = "cash" then max 0 (cashAmount - sale1.total_amount)
        else if method = "mixed" then
          let cashDue := max 0 (sale1.total_amount - cardAmount)
          max 0 (cashAmount - cashDue)
        else 0
      ({ t with currentSale := some { sale1 with changeGiven := changeGiven } },
       Except.ok true)
    else
      (t, Except.error "Invalid payment method")

/-- TransactionManager.validate_payment: true iff the tendered amounts
cover the total. -/
def validate_payment (t : TState) : Bool :=
  match t.currentSale with
  | none => false
  | some sale => decide (sale.total_amount ≤ sale.cashAmount + sale.cardAmount)

/-- The stock-reduction loop of TransactionManager.complete_sale: call
reduce_stock_for_sale per item, ignoring its boolean result and stopping
at the first raised error (which keeps the partial state, as in Python). -/
def reduceItems (ps : PState) : List SaleItem → ℕ → ℕ → PState × Except String Unit
  | [], _, _ => (ps, Except.ok ())
  | it :: rest, saleId, uid =>
    match reduce_stock_for_sale ps it.productId it.quantity saleId uid with
    | (ps1, Except.error e) => (ps1, Except.error e)
    | (ps1, Except.ok _) => reduceItems ps1 rest saleId uid

/-- TransactionManager.complete_sale: raise without an active sale, raise
on an empty item list, raise when payment does not cover the total; only
then persist the sale and run the stock-reduction loop, finally clearing
the builder slot. -/
def complete_sale (t : TState) : TState × Except String ℕ :=
  match t.currentSale with
  | none => (t, Except.error "No active sale to complete")
  | some sale =>
    if sale.items.isEmpty then
      (t, Except.error "Cannot complete sale with no items")
    else if !(validate_payment t) then
      (t, Except.error "Payment amount is insufficient")
    else
      let saleId := t.nextSaleId
      let t1 := { t with
        sales := fun j => if j = saleId then some sale else t.sales j,
        nextSaleId := saleId + 1 }
      match reduceItems t1.pstate sale.items saleId sale.userId with
      | (ps1, Except.error e) => ({ t1 with pstate := ps1 }, Except.error e)
      | (ps1, Except.ok _) =>
        ({ t1 with pstate := ps1, currentSale := none }, Except.ok saleId)

/-- The stock-restoration loop of TransactionManager.void_sale: one
adjust_stock call with kind adjustment per original line item. -/
def restoreItems (ps : PState) : List SaleItem → ℕ → PState × Except String Unit
  | [], _ => (ps, Except.ok ())
  | it :: rest, uid =>
    match adjust_stock ps it.productId it.quantity "adjustment" uid
        "Stock restored from voided sale" with
    | (ps1, Except.error e) => (ps1, Except.error e)
    | (ps1, Except.ok _) => restoreItems ps1 rest uid

/-- TransactionManager.void_sale: False for an unknown sale id, raise when
the sale is already voided, otherwise mark it voided with the acting user,
timestamp and reason, then restore stock item by item. -/
def void_sale (t : TState) (saleId : ℕ) (uid : ℕ) (reason : String) :
    TState × Except String Bool :=
  match t.sales saleId with
  | none => (t, Except.ok false)
  | some sale =>
    if sale.voided then
      (t, Except.error "Sale is already voided")
    else
      let sale1 := { sale with
        voided := true, voidedBy := some uid,
        voidedAt := some t.now, voidReason := reason }
      let t1 := { t with sales := fun j => if j = saleId then some sale1 else t.sales j }
      match restoreItems t1.pstate sale.items uid with
      | (ps1, Except.error e) => ({ t1 with pstate := ps1 }, Except.error e)
      | (ps1, Except.ok _) => ({ t1 with pstate := ps1 }, Except.ok true)

theorem sum_net_add_vat (l : List SaleItem) :
    (l.map (fun it => it.totalPrice - it.calculate_vat_amount)).sum +
      (l.map (fun it => it.calculate_vat_amount)).sum =
      (l.map (fun it => it.totalPrice)).sum := by
  induction l with
  | nil => simp
  | cons a l ih =>
    simp only [List.map_cons, List.sum_cons]
    linarith

/-- C8: subtotal plus VAT equals the grand total exactly (hence within the
0.01 tolerance); the VAT share of a line with positive snapshot rate is
total times rate over 100 plus rate; a line with non-positive snapshot
rate carries no VAT; and a line added from a VAT-exclusive product is
snapshotted with rate 0 and contributes nothing to the VAT amount of the
sale. -/
theorem C8_vat_roundtrip :
    (∀ sale : Sale, sale.subtotal + sale.vat_amount = sale.total_amount) ∧
    (∀ sale : Sale, |sale.subtotal + sale.vat_amount - sale.total_amount| < 1 / 100) ∧
    (∀ it : SaleItem, 0 < it.vatRate →
      it.calculate_vat_amount = it.totalPrice * (it.vatRate / (100 + it.vatRate))) ∧
    (∀ it : SaleItem, it.vatRate ≤ 0 → it.calculate_vat_amount = 0) ∧
    (∀ (t : TState) (sale : Sale) (pid : ℕ) (qty : ℤ) (product : Product),
      t.currentSale = some sale →
      get_product_by_id t.pstate pid = some product →
      product.vatInclusive = false →
      sale.items.find? (fun it => it.productId = pid) = none →
      qty ≤ product.currentStock →
      ∃ sale2, (add_item_to_sale t pid qty).1.currentSale = some sale2 ∧
        (∃ newIt, sale2.items = sale.items ++ [newIt] ∧ newIt.vatRate = 0 ∧
          newIt.calculate_vat_amount = 0) ∧
        sale2.vat_amount = sale.vat_amount) := by
  refine ⟨?_, ?_, ?_, ?_, ?_⟩
  · intro sale
    exact sum_net_add_vat sale.items
  · intro sale
    have h : sale.subtotal + sale.vat_amount = sale.total_amount :=
      sum_net_add_vat sale.items
    rw [h, sub_self, abs_zero]
    norm_num
  · intro it hpos
    simp [SaleItem.calculate_vat_amount, hpos]
  · intro it hle
    simp [SaleItem.calculate_vat_amount, not_lt.mpr hle]
  · intro t sale pid qty product hcur hprod hexc hfind hqty
    refine ⟨{ sale with
        items := sale.items ++
          [{ productId := pid, productName := product.name, quantity := qty,
             unitPrice := product.sellPrice,
             totalPrice := product.sellPrice * (qty : ℚ), vatRate := 0 }] },
      ?_, ?_, ?_⟩
    · simp [add_item_to_sale, hcur, hprod, hfind, not_lt.mpr hqty, hexc]
    · exact ⟨_, rfl, rfl, by simp [SaleItem.calculate_vat_amount]⟩
    · simp [Sale.vat_amount, SaleItem.calculate_vat_amount]

/-- A VAT-inclusive line used by witnesses: rate 15, total 115. -/
def witItemVat : SaleItem :=
  { productId := 1, productName := "Coke", quantity := 1, unitPrice := 115,
    totalPrice := 115, vatRate := 15 }

/-- C8 witness: for a one-line sale with rate 15 and total 115, the VAT
share is 15, and subtotal plus VAT equals the total. -/
theorem C8_vat_roundtrip_witness :
    (0 : ℚ) < witItemVat.vatRate ∧
    witItemVat.calculate_vat_amount =
      witItemVat.totalPrice * (witItemVat.vatRate / (100 + witItemVat.vatRate)) ∧
    Sale.subtotal { userId := 1, items := [witItemVat] } +
        Sale.vat_amount { userId := 1, items := [witItemVat] } =
      Sale.total_amount { userId := 1, items := [witItemVat] } :=
  ⟨by norm_num [witItemVat], C8_vat_roundtrip.2.2.1 witItemVat (by norm_num [witItemVat]),
    C8_vat_roundtrip.1 _⟩

/-- C4: set_payment_method records the method and tendered amounts and
computes the change as the source does: cash gives max 0 of cash minus
total, card always gives 0, mixed gives max 0 of cash minus the cash due
left after the card amount offsets the total; when the card amount alone
covers the total all non-negative tendered cash comes back as change. -/
theorem C4_payment_change :
    ∀ (t : TState) (sale : Sale), t.currentSale = some sale →
    ∀ cashAmount cardAmount : ℚ,
      (∃ s1, set_payment_method t "cash" cashAmount cardAmount =
          ({ t with currentSale := some s1 }, Except.ok true) ∧
        s1.paymentMethod = "cash" ∧ s1.cashAmount = cashAmount ∧
        s1.cardAmount = cardAmount ∧
        s1.changeGiven = max 0 (cashAmount - sale.total_amount)) ∧
      (∃ s2, set_payment_method t "card" cashAmount cardAmount =
          ({ t with currentSale := some s2 }, Except.ok true) ∧
        s2.paymentMethod = "card" ∧ s2.cashAmount = cashAmount ∧
        s2.cardAmount = cardAmount ∧ s2.changeGiven = 0) ∧
      (∃ s3, set_payment_method t "mixed" cashAmount cardAmount =
          ({ t with currentSale := some s3 }, Except.ok true) ∧
        s3.paymentMethod = "mixed" ∧ s3.cashAmount = cashAmount ∧
        s3.cardAmount = cardAmount ∧
        s3.changeGiven = max 0 (cashAmount - max 0 (sale.total_amount - cardAmount))) ∧
      (sale.total_amount ≤ cardAmount → 0 ≤ cashAmount →
        ∃ s4, (set_payment_method t "mixed" cashAmount cardAmount).1.currentSale =
            some s4 ∧ s4.changeGiven = cashAmount) := by
  intro t sale hcur cashAmount cardAmount
  refine ⟨⟨{ sale with
      paymentMethod := "cash", cashAmount := cashAmount, cardAmount := cardAmount,
      changeGiven := max 0 (cashAmount - sale.total_amount) },
      ?_, rfl, rfl, rfl, rfl⟩,
    ⟨{ sale with
      paymentMethod := "card", cashAmount := cashAmount, cardAmount := cardAmount,
      changeGiven := 0 }, ?_, rfl, rfl, rfl, rfl⟩,
    ⟨{ sale with
      paymentMethod := "mixed", cashAmount := cashAmount, cardAmount := cardAmount,
      changeGiven := max 0 (cashAmount - max 0 (sale.total_amount - cardAmount)) },
      ?_, rfl, rfl, rfl, rfl⟩, ?_⟩
  · simp [set_payment_method, hcur, Sale.total_amount]
  · simp [set_payment_method, hcur, Sale.total_amount]
  · simp [set_payment_method, hcur, Sale.total_amount]
  · intro hcov hcash
    refine ⟨{ sale with
        paymentMethod := "mixed", cashAmount := cashAmount, cardAmount := cardAmount,
        changeGiven := max 0 (cashAmount - max 0 (sale.total_amount - cardAmount)) },
      by simp [set_payment_method, hcur, Sale.total_amount], ?_⟩
    show max 0 (cashAmount - max 0 (sale.total_amount - cardAmount)) = cashAmount
    have h0 : max 0 (sale.total_amount - cardAmount) = 0 :=
      max_eq_left (by linarith)
    rw [h0, sub_zero, max_eq_right hcash]

/-- Builder state used by witnesses: one product in the catalog, one empty
open sale, no persisted sales. -/
def witTState : TState :=
  { pstate := witState, sales := fun _ => none, nextSaleId := 1,
    currentSale := some { userId := 1, items := [] }, now := 0 }

/-- An open sale with one line of total 100, used by the payment witness. -/
def witSaleC4 : Sale :=
  { userId := 1,
    items := [{ productId := 1, productName := "Coke", quantity := 1,
                unitPrice := 100, totalPrice := 100, vatRate := 0 }] }

/-- Builder state whose open sale has one line of total 100. -/
def witTStateC4 : TState :=
  { witTState with currentSale := some witSaleC4 }

/-- C4 witness: scenario C, a mixed payment of card 60 and cash 50 on a
total of 100 gives change 10. -/
theorem C4_payment_change_witness :
    ∃ s3, set_payment_method witTStateC4 "mixed" 50 60 =
        ({ witTStateC4 with currentSale := some s3 }, Except.ok true) ∧
      s3.changeGiven = 10 := by
  obtain ⟨s3, heq, _, _, _, hchg⟩ :=
    (C4_payment_change witTStateC4 witSaleC4 rfl 50 60).2.2.1
  refine ⟨s3, heq, ?_⟩
  rw [hchg]
  norm_num [witSaleC4, Sale.total_amount]

/-- C2: complete_sale raises on an empty item list, and raises when the
tendered cash plus card is below the total; in both cases the returned
state is exactly the input state, so nothing is persisted, no stock moves,
and the sale stays in the builder slot. -/
theorem C2_complete_sale_guards :
    ∀ (t : TState) (sale : Sale), t.currentSale = some sale →
      (sale.items = [] →
        complete_sale t = (t, Except.error "Cannot complete sale with no items")) ∧
      (sale.items ≠ [] →
        sale.cashAmount + sale.cardAmount < sale.total_amount →
        complete_sale t = (t, Except.error "Payment amount is insufficient")) := by
  intro t sale hcur
  constructor
  · intro hempty
    simp [complete_sale, hcur, hempty]
  · intro hne hlt
    have hval : validate_payment t = false := by
      simp only [validate_payment, hcur, decide_eq_false_iff_not]
      exact not_le.mpr hlt
    simp [complete_sale, hcur, hne, hval]

/-- C2 witness: completing the empty open sale of the witness state raises
and leaves the state unchanged. -/
theorem C2_complete_sale_guards_witness :
    witTState.currentSale = some { userId := 1, items := [] } ∧
    complete_sale witTState =
      (witTState, Except.error "Cannot complete sale with no items") :=
  ⟨rfl, (C2_complete_sale_guards witTState _ rfl).1 rfl⟩

theorem updateFirstItem_length (pid : ℕ) (f : SaleItem → SaleItem)
    (l : List SaleItem) : (updateFirstItem pid f l).length = l.length := by
  induction l with
  | nil => rfl
  | cons it rest ih =>
    unfold updateFirstItem
    by_cases h : it.productId = pid
    · simp [h]
    · simp [h, ih]

/-- C5: add_item_to_sale raises on an unknown product; for a product not
yet on the sale it succeeds exactly when the requested quantity is at most
the current stock (appending one snapshot line) and raises otherwise, in
particular quantity equal to stock succeeds and stock plus one fails; for
a product already on the sale it merges into the first matching line,
keeping the line count, exactly when the combined quantity is at most the
current stock, and raises otherwise. -/
theorem C5_add_item_stock_check :
    (∀ (t : TState) (sale : Sale) (pid : ℕ) (qty : ℤ), t.currentSale = some sale →
      get_product_by_id t.pstate pid = none →
      add_item_to_sale t pid qty = (t, Except.error "Product not found")) ∧
    (∀ (t : TState) (sale : Sale) (pid : ℕ) (qty : ℤ) (product : Product),
      t.currentSale = some sale →
      get_product_by_id t.pstate pid = some product →
      sale.items.find? (fun it => it.productId = pid) = none →
      (qty ≤ product.currentStock →
        add_item_to_sale t pid qty =
          ({ t with currentSale := some { sale with
              items := sale.items ++
                [{ productId := pid, productName := product.name,
                   quantity := qty, unitPrice := product.sellPrice,
                   totalPrice := product.sellPrice * (qty : ℚ),
                   vatRate := if product.vatInclusive then product.vatRate
                     else 0 }] } }, Except.ok true)) ∧
      (product.currentStock < qty →
        add_item_to_sale t pid qty = (t, Except.error "Insufficient stock")) ∧
      (qty = product.currentStock → (add_item_to_sale t pid qty).2 = Except.ok true) ∧
      (qty = product.currentStock + 1 →
        (add_item_to_sale t pid qty).2 = Except.error "Insufficient stock")) ∧
    (∀ (t : TState) (sale : Sale) (pid : ℕ) (qty : ℤ) (product : Product)
        (existingItem : SaleItem),
      t.currentSale = some sale →
      get_product_by_id t.pstate pid = some product →
      sale.items.find? (fun it => it.productId = pid) = some existingItem →
      0 ≤ existingItem.quantity →
      (existingItem.quantity + qty ≤ product.currentStock →
        add_item_to_sale t pid qty =
          ({ t with currentSale := some { sale with
              items := updateFirstItem pid (fun it =>
                { it with
                  quantity := existingItem.quantity + qty,
                  totalPrice := it.unitPrice *
                    ((existingItem.quantity + qty : ℤ) : ℚ) }) sale.items } },
            Except.ok true) ∧
        ∀ sale2, (add_item_to_sale t pid qty).1.currentSale = some sale2 →
          sale2.items.length = sale.items.length) ∧
      (product.currentStock < existingItem.quantity + qty →
        add_item_to_sale t pid qty = (t, Except.error "Insufficient stock"))) := by
  refine ⟨?_, ?_, ?_⟩
  · intro t sale pid qty hcur hnone
    simp [add_item_to_sale, hcur, get_product_by_id] at hnone ⊢
    simp [hnone]
  · intro t sale pid qty product hcur hprod hfind
    refine ⟨?_, ?_, ?_, ?_⟩
    · intro hle
      simp [add_item_to_sale, hcur, hprod, hfind, not_lt.mpr hle]
    · intro hgt
      simp [add_item_to_sale, hcur, hprod, hgt]
    · intro heq
      have hle : qty ≤ product.currentStock := le_of_eq heq
      simp [add_item_to_sale, hcur, hprod, hfind, not_lt.mpr hle]
    · intro heq
      have hgt : product.currentStock < qty := by omega
      simp [add_item_to_sale, hcur, hprod, hgt]
  · intro t sale pid qty product existingItem hcur hprod hfind hq0
    constructor
    · intro hle
      have h1 : ¬ product.currentStock < qty := by omega
      have h2 : ¬ product.currentStock < existingItem.quantity + qty := not_lt.mpr hle
      constructor
      · simp [add_item_to_sale, hcur, hprod, hfind, h1, h2]
      · intro sale2 hs2
        simp [add_item_to_sale, hcur, hprod, hfind, h1, h2] at hs2
        rw [← hs2]
        simp [updateFirstItem_length]
    · intro hgt
      by_cases h1 : product.currentStock < qty
      · simp [add_item_to_sale, hcur, hprod, h1]
      · simp [add_item_to_sale, hcur, hprod, hfind, h1, hgt]

/-- C5 witness: on the witness state (stock 10, empty sale) adding 10
units succeeds and adding 11 raises. -/
theorem C5_add_item_stock_check_witness :
    (add_item_to_sale witTState 1 10).2 = Except.ok true ∧
    (add_item_to_sale witTState 1 11).2 = Except.error "Insufficient stock" := by
  have h2 := (C5_add_item_stock_check.2.1 witTState { userId := 1, items := [] }
    1 10 witProduct rfl rfl rfl).2.2.1 rfl
  have h3 := (C5_add_item_stock_check.2.1 witTState { userId := 1, items := [] }
    1 11 witProduct rfl rfl rfl).2.2.2 rfl
  exact ⟨h2, h3⟩

theorem reduce_products_other (s : PState) (pid : ℕ) (qty : ℤ) (saleId uid : ℕ)
    (j : ℕ) (hj : j ≠ pid) :
    (reduce_stock_for_sale s pid qty saleId uid).1.products j = s.products j := by
  unfold reduce_stock_for_sale
  cases hp : s.products pid with
  | none => rfl
  | some product =>
    by_cases hlt : product.currentStock < qty
    · simp [hlt]
    · simp [hlt, hj]

theorem adjust_products_other (s : PState) (pid : ℕ) (qc : ℤ) (mt : String)
    (uid : ℕ) (reason : String) (j : ℕ) (hj : j ≠ pid) :
    (adjust_stock s pid qc mt uid reason).1.products j = s.products j := by
  unfold adjust_stock
  cases hp : s.products pid with
  | none => rfl
  | some product =>
    by_cases hneg : product.currentStock + qc < 0
    · simp [hneg]
    · simp [hneg, hj]

theorem find?_of_nodup_mem (items : List SaleItem) (it : SaleItem)
    (hnd : (items.map SaleItem.productId).Nodup) (hmem : it ∈ items) :
    items.find? (fun x => x.productId = it.productId) = some it := by
  induction items with
  | nil => cases hmem
  | cons a rest ih =>
    simp only [List.map_cons, List.nodup_cons] at hnd
    rcases List.mem_cons.mp hmem with h | h
    · subst h
      simp
    · have hne : a.productId ≠ it.productId := by
        intro he
        exact hnd.1 (he ▸ List.mem_map_of_mem SaleItem.productId h)
      rw [List.find?_cons_of_neg _ (by simp [hne]), ih hnd.2 h]

theorem reduceItems_char (items : List SaleItem) (ps : PState) (saleId uid : ℕ)
    (hnd : (items.map SaleItem.productId).Nodup)
    (hok : (reduceItems ps items saleId uid).2 = Except.ok ()) (j : ℕ) :
    (reduceItems ps items saleId uid).1.products j =
      match items.find? (fun it => it.productId = j) with
      | none => ps.products j
      | some it => Option.map
          (fun p => { p with currentStock := p.currentStock - it.quantity })
          (ps.products j) := by
  induction items generalizing ps with
  | nil => rfl
  | cons it rest ih =>
    simp only [List.map_cons, List.nodup_cons] at hnd
    have hstep :
        reduceItems ps (it :: rest) saleId uid =
          match reduce_stock_for_sale ps it.productId it.quantity saleId uid with
          | (ps1, Except.error e) => (ps1, Except.error e)
          | (ps1, Except.ok _) => reduceItems ps1 rest saleId uid := rfl
    cases hp : ps.products it.productId with
    | none =>
      have hred : reduce_stock_for_sale ps it.productId it.quantity saleId uid =
          (ps, Except.ok false) := by
        unfold reduce_stock_for_sale
        simp [hp]
      rw [hstep, hred] at hok ⊢
      by_cases hj : it.productId = j
      · subst hj
        rw [List.find?_cons_of_pos _ (by simp)]
        have hnone : rest.find? (fun x => x.productId = it.productId) = none := by
          rw [List.find?_eq_none]
          intro x hx hpx
          exact hnd.1 ((of_decide_eq_true hpx) ▸ List.mem_map_of_mem SaleItem.productId hx)
        have := ih ps hnd.2 hok
        rw [this, hnone, hp]
        rfl
      · rw [List.find?_cons_of_neg _ (by simp [hj])]
        exact ih ps hnd.2 hok
    | some product =>
      by_cases hlt : product.currentStock < it.quantity
      · have hred : reduce_stock_for_sale ps it.productId it.quantity saleId uid =
            (ps, Except.error "Insufficient stock") := by
          unfold reduce_stock_for_sale
          simp [hp, hlt]
        rw [hstep, hred] at hok
        cases hok
      · have hred : reduce_stock_for_sale ps it.productId it.quantity saleId uid =
            ({ products := fun k => if k = it.productId then
                 some { product with currentStock := product.currentStock - it.quantity }
               else ps.products k,
               movements := ps.movements ++
                 [{ productId := it.productId, movementType := "sale",
                    quantityChange := -it.quantity,
                    previousStock := product.currentStock,
                    newStock := product.currentStock - it.quantity, userId := uid,
                    reason := "Sale transaction", referenceId := some saleId }] },
             Except.ok true) := by
          unfold reduce_stock_for_sale
          simp [hp, hlt]
        rw [hstep, hred] at hok ⊢
        by_cases hj : it.productId = j
        · subst hj
          rw [List.find?_cons_of_pos _ (by simp)]
          have hnone : rest.find? (fun x => x.productId = it.productId) = none := by
            rw [List.find?_eq_none]
            intro x hx hpx
            exact hnd.1 ((of_decide_eq_true hpx) ▸ List.mem_map_of_mem SaleItem.productId hx)
          have := ih _ hnd.2 hok
          rw [this, hnone]
          simp [hp]
        · rw [List.find?_cons_of_neg _ (by simp [hj])]
          have := ih _ hnd.2 hok
          rw [this]
          have hji : ¬ j = it.productId := fun h => hj h.symm
          have hunch : (fun k => if k = it.productId then
              some { product with currentStock := product.currentStock - it.quantity }
            else ps.products k) j = ps.products j := by
            simp [hji]
          cases hfind : rest.find? (fun x => x.productId = j) with
          | none => simp only [hunch]
          | some it2 => simp only [hunch]

theorem restoreItems_ok (items : List SaleItem) (ps : PState) (uid : ℕ)
    (hnd : (items.map SaleItem.productId).Nodup)
    (hpre : ∀ it ∈ items, ∀ p, ps.products it.productId = some p →
      0 ≤ p.currentStock + it.quantity) :
    (restoreItems ps items uid).2 = Except.ok () ∧
    ∀ j, (restoreItems ps items uid).1.products j =
      match items.find? (fun it => it.productId = j) with
      | none => ps.products j
      | some it => Option.map
          (fun p => { p with currentStock := p.currentStock + it.quantity })
          (ps.products j) := by
  induction items generalizing ps with
  | nil => exact ⟨rfl, fun j => rfl⟩
  | cons it rest ih =>
    simp only [List.map_cons, List.nodup_cons] at hnd
    have hstep :
        restoreItems ps (it :: rest) uid =
          match adjust_stock ps it.productId it.quantity "adjustment" uid
              "Stock restored from voided sale" with
          | (ps1, Except.error e) => (ps1, Except.error e)
          | (ps1, Except.ok _) => restoreItems ps1 rest uid := rfl
    cases hp : ps.products it.productId with
    | none =>
      have hadj : adjust_stock ps it.productId it.quantity "adjustment" uid
          "Stock restored from voided sale" = (ps, Except.ok false) := by
        unfold adjust_stock
        simp [hp]
      rw [hstep, hadj]
      have hpre2 : ∀ it2 ∈ rest, ∀ p, ps.products it2.productId = some p →
          0 ≤ p.currentStock + it2.quantity :=
        fun it2 h2 => hpre it2 (List.mem_cons_of_mem it h2)
      obtain ⟨hok2, hchar2⟩ := ih ps hnd.2 hpre2
      refine ⟨hok2, fun j => ?_⟩
      by_cases hj : it.productId = j
      · subst hj
        rw [List.find?_cons_of_pos _ (by simp)]
        have hnone : rest.find? (fun x => x.productId = it.productId) = none := by
          rw [List.find?_eq_none]
          intro x hx hpx
          exact hnd.1 ((of_decide_eq_true hpx) ▸ List.mem_map_of_mem SaleItem.productId hx)
        rw [hchar2 it.productId, hnone, hp]
        rfl
      · rw [List.find?_cons_of_neg _ (by simp [hj])]
        exact hchar2 j
    | some product =>
      have hge : 0 ≤ product.currentStock + it.quantity :=
        hpre it (List.mem_cons_self it rest) product hp
      have hneg : ¬ product.currentStock + it.quantity < 0 := not_lt.mpr hge
      have hadj : adjust_stock ps it.productId it.quantity "adjustment" uid
          "Stock restored from voided sale" =
          ({ products := fun k => if k = it.productId then
               some { product with currentStock := product.currentStock + it.quantity }
             else ps.products k,
             movements := ps.movements ++
               [{ productId := it.productId, movementType := "adjustment",
                  quantityChange := it.quantity,
                  previousStock := product.currentStock,
                  newStock := product.currentStock + it.quantity, userId := uid,
                  reason := "Stock restored from voided sale",
                  referenceId := none }] },
           Except.ok true) := by
        unfold adjust_stock
        simp [hp, hneg]
      rw [hstep, hadj]
      have hps2 : ∀ it2 ∈ rest, (fun k => if k = it.productId then
          some { product with currentStock := product.currentStock + it.quantity }
        else ps.products k) it2.productId = ps.products it2.productId := by
        intro it2 h2
        have hne : ¬ it2.productId = it.productId := by
          intro he
          exact hnd.1 (he ▸ List.mem_map_of_mem SaleItem.productId h2)
        simp [hne]
      have hpre2 : ∀ it2 ∈ rest, ∀ p,
          (fun k => if k = it.productId then
            some { product with currentStock := product.currentStock + it.quantity }
          else ps.products k) it2.productId = some p →
          0 ≤ p.currentStock + it2.quantity := by
        intro it2 h2 p hp2
        rw [hps2 it2 h2] at hp2
        exact hpre it2 (List.mem_cons_of_mem it h2) p hp2
      obtain ⟨hok2, hchar2⟩ := ih
        { products := fun k => if k = it.productId then
            some { product with currentStock := product.currentStock + it.quantity }
          else ps.products k,
          movements := ps.movements ++
            [{ productId := it.productId, movementType := "adjustment",
               quantityChange := it.quantity,
               previousStock := product.currentStock,
               newStock := product.currentStock + it.quantity, userId := uid,
               reason := "Stock restored from voided sale",
               referenceId := none }] } hnd.2 hpre2
      refine ⟨hok2, fun j => ?_⟩
      by_cases hj : it.productId = j
      · subst hj
        rw [List.find?_cons_of_pos _ (by simp)]
        have hnone : rest.find? (fun x => x.productId = it.productId) = none := by
          rw [List.find?_eq_none]
          intro x hx hpx
          exact hnd.1 ((of_decide_eq_true hpx) ▸ List.mem_map_of_mem SaleItem.productId hx)
        rw [hchar2 it.productId, hnone]
        simp [hp]
      · rw [List.find?_cons_of_neg _ (by simp [hj])]
        rw [hchar2 j]
        have hji : ¬ j = it.productId := fun h => hj h.symm
        have hunch : (fun k => if k = it.productId then
            some { product with currentStock := product.currentStock + it.quantity }
          else ps.products k) j = ps.products j := by
          simp [hji]
        cases hfind : rest.find? (fun x => x.productId = j) with
        | none => simp only [hunch]
        | some it2 => simp only [hunch]

theorem adjust_movements (s : PState) (pid : ℕ) (qc : ℤ) (mt : String)
    (uid : ℕ) (reason : String) :
    ∃ tail, (adjust_stock s pid qc mt uid reason).1.movements =
      s.movements ++ tail ∧ ∀ m ∈ tail, m.movementType = mt := by
  unfold adjust_stock
  cases hp : s.products pid with
  | none => exact ⟨[], by simp⟩
  | some product =>
    by_cases hneg : product.currentStock + qc < 0
    · exact ⟨[], by simp [hneg]⟩
    · refine ⟨[{ productId := pid, movementType := mt, quantityChange := qc,
                 previousStock := product.currentStock,
                 newStock := product.currentStock + qc, userId := uid,
                 reason := reason, referenceId := none }], by simp [hneg], ?_⟩
      intro m hm
      rw [List.mem_singleton] at hm
      subst hm
      rfl

theorem restoreItems_movements (items : List SaleItem) (ps : PState) (uid : ℕ) :
    ∃ tail, (restoreItems ps items uid).1.movements = ps.movements ++ tail ∧
      ∀ m ∈ tail, m.movementType = "adjustment" := by
  induction items generalizing ps with
  | nil =>
    refine ⟨[], ?_, by simp⟩
    show ps.movements = ps.movements ++ []
    simp
  | cons it rest ih =>
    have hstep :
        restoreItems ps (it :: rest) uid =
          match adjust_stock ps it.productId it.quantity "adjustment" uid
              "Stock restored from voided sale" with
          | (ps1, Except.error e) => (ps1, Except.error e)
          | (ps1, Except.ok _) => restoreItems ps1 rest uid := rfl
    obtain ⟨t1, ht1, ht1adj⟩ := adjust_movements ps it.productId it.quantity
      "adjustment" uid "Stock restored from voided sale"
    rcases hadj : adjust_stock ps it.productId it.quantity "adjustment" uid
        "Stock restored from voided sale" with ⟨ps1, r⟩
    rw [hadj] at ht1
    cases r with
    | error e =>
      rw [hstep, hadj]
      exact ⟨t1, ht1, ht1adj⟩
    | ok b =>
      obtain ⟨t2, ht2, ht2adj⟩ := ih ps1
      rw [hstep, hadj]
      refine ⟨t1 ++ t2, ?_, ?_⟩
      · rw [ht2, ht1, List.append_assoc]
      · intro m hm
        rcases List.mem_append.mp hm with h | h
        · exact ht1adj m h
        · exact ht2adj m h

/-- C6: voiding an already-voided sale raises and changes nothing; a
positive-delta adjustment can never raise the insufficient-stock error
under the stock invariant; and voiding a just-completed sale succeeds,
marks the persisted sale voided with the acting user and reason, appends
only adjustment movements, and returns every product stock to its value
before the sale was completed. -/
theorem C6_void_restores_stock :
    (∀ (t : TState) (saleId uid : ℕ) (reason : String) (sale : Sale),
      t.sales saleId = some sale → sale.voided = true →
      void_sale t saleId uid reason = (t, Except.error "Sale is already voided")) ∧
    (∀ (s : PState) (pid : ℕ) (qc : ℤ) (mt : String) (uid : ℕ) (reason : String),
      StockInv s → 0 ≤ qc →
      ∃ b, (adjust_stock s pid qc mt uid reason).2 = Except.ok b) ∧
    (∀ (t : TState) (sale : Sale) (sid uid2 : ℕ) (reason : String),
      t.currentSale = some sale → sale.voided = false →
      (sale.items.map SaleItem.productId).Nodup →
      StockInv t.pstate →
      (complete_sale t).2 = Except.ok sid →
      (void_sale (complete_sale t).1 sid uid2 reason).2 = Except.ok true ∧
      (∀ j, (void_sale (complete_sale t).1 sid uid2 reason).1.pstate.products j =
        t.pstate.products j) ∧
      (∃ sale2, (void_sale (complete_sale t).1 sid uid2 reason).1.sales sid =
          some sale2 ∧ sale2.voided = true ∧ sale2.voidedBy = some uid2 ∧
          sale2.voidReason = reason ∧ sale2.items = sale.items) ∧
      (∃ tail, (void_sale (complete_sale t).1 sid uid2 reason).1.pstate.movements =
        (complete_sale t).1.pstate.movements ++ tail ∧
        ∀ m ∈ tail, m.movementType = "adjustment")) := by
  refine ⟨?_, ?_, ?_⟩
  · intro t saleId uid reason sale hs hv
    simp [void_sale, hs, hv]
  · intro s pid qc mt uid reason hinv hqc
    unfold adjust_stock
    cases hp : s.products pid with
    | none => exact ⟨false, rfl⟩
    | some product =>
      have hneg : ¬ product.currentStock + qc < 0 := by
        have := hinv pid product hp
        omega
      exact ⟨true, by simp [hneg]⟩
  · intro t sale sid uid2 reason hcur hv hnd hinv hok
    by_cases hemp : sale.items.isEmpty
    · exfalso
      simp [complete_sale, hcur, hemp] at hok
    by_cases hval : validate_payment t
    case neg =>
      exfalso
      simp [complete_sale, hcur, hemp, hval] at hok
    rcases hred : reduceItems t.pstate sale.items t.nextSaleId sale.userId with ⟨psR, r⟩
    cases r with
    | error e =>
      exfalso
      simp [complete_sale, hcur, hemp, hval, hred] at hok
    | ok u =>
      have hredok : (reduceItems t.pstate sale.items t.nextSaleId sale.userId).2 =
          Except.ok () := by
        rw [hred]
      have hcs : complete_sale t =
          ({ pstate := psR,
             sales := fun j => if j = t.nextSaleId then some sale else t.sales j,
             nextSaleId := t.nextSaleId + 1, currentSale := none, now := t.now },
           Except.ok t.nextSaleId) := by
        simp [complete_sale, hcur, hemp, hval, hred]
      have hsid : sid = t.nextSaleId := by
        rw [hcs] at hok
        simpa using hok.symm
      subst hsid
      -- preconditions for the restore loop
      have hpre : ∀ it ∈ sale.items, ∀ p1, psR.products it.productId = some p1 →
          0 ≤ p1.currentStock + it.quantity := by
        intro it hit p1 hp1
        have hchar := reduceItems_char sale.items t.pstate t.nextSaleId sale.userId
          hnd hredok it.productId
        rw [hred] at hchar
        rw [find?_of_nodup_mem sale.items it hnd hit] at hchar
        rw [hchar] at hp1
        cases horig : t.pstate.products it.productId with
        | none => rw [horig] at hp1; cases hp1
        | some p0 =>
          rw [horig] at hp1
          have hp1e : ({ p0 with currentStock := p0.currentStock - it.quantity }
              : Product) = p1 := by
            simpa using hp1
          have h0 : 0 ≤ p0.currentStock := hinv it.productId p0 horig
          rw [← hp1e]
          show 0 ≤ p0.currentStock - it.quantity + it.quantity
          omega
      obtain ⟨hrok, hrchar⟩ := restoreItems_ok sale.items psR uid2 hnd hpre
      rcases hres : restoreItems psR sale.items uid2 with ⟨psV, rr⟩
      rw [hres] at hrok hrchar
      have hrr : rr = Except.ok () := hrok
      subst hrr
      obtain ⟨tail, htail, htailadj⟩ := restoreItems_movements sale.items psR uid2
      rw [hres] at htail
      -- evaluate void_sale on the completed state
      have hvs : void_sale (complete_sale t).1 t.nextSaleId uid2 reason =
          ({ pstate := psV,
             sales := fun j => if j = t.nextSaleId then
               some { sale with
                 voided := true, voidedBy := some uid2,
                 voidedAt := some t.now, voidReason := reason }
             else if j = t.nextSaleId then some sale else t.sales j,
             nextSaleId := t.nextSaleId + 1, currentSale := none, now := t.now },
           Except.ok true) := by
        rw [hcs]
        simp [void_sale, hv, hres]
      refine ⟨by rw [hvs], ?_, ?_, ?_⟩
      · intro j
        rw [hvs]
        show psV.products j = t.pstate.products j
        have hchar := reduceItems_char sale.items t.pstate t.nextSaleId sale.userId
          hnd hredok j
        rw [hred] at hchar
        rw [hrchar j, hchar]
        cases hfind : sale.items.find? (fun it => it.productId = j) with
        | none => rfl
        | some it =>
          cases horig : t.pstate.products j with
          | none => rfl
          | some p0 =>
            simp only [Option.map_some', Option.some.injEq]
            cases p0
            simp only [Product.mk.injEq, sub_add_cancel, eq_self_iff_true, and_self]
      · refine ⟨{ sale with
            voided := true, voidedBy := some uid2,
            voidedAt := some t.now, voidReason := reason }, ?_, rfl, rfl, rfl, rfl⟩
        rw [hvs]
        simp
      · refine ⟨tail, ?_, htailadj⟩
        rw [hvs, hcs]
        exact htail

/-- An open sale buying 2 units of product 1 with cash 20 tendered. -/
def witSaleC6 : Sale :=
  { userId := 1,
    items := [{ productId := 1, productName := "Coke", quantity := 2,
                unitPrice := 8, totalPrice := 16, vatRate := 15 }],
    cashAmount := 20 }

/-- Builder state holding that sale over the witness catalog. -/
def witTStateC6 : TState :=
  { pstate := witState, sales := fun _ => none, nextSaleId := 1,
    currentSale := some witSaleC6, now := 0 }

theorem witC6_hok : (complete_sale witTStateC6).2 = Except.ok 1 := by
  have hval : validate_payment witTStateC6 = true := by
    norm_num [validate_payment, witTStateC6, witSaleC6, Sale.total_amount]
  simp only [complete_sale, witTStateC6, witSaleC6]
  norm_num [hval, reduceItems, reduce_stock_for_sale, witState, witProduct,
    validate_payment, Sale.total_amount]

/-- C6 witness: completing the concrete sale succeeds, voiding it then
succeeds and returns product 1 to its pre-sale stock. -/
theorem C6_void_restores_stock_witness :
    (complete_sale witTStateC6).2 = Except.ok 1 ∧
    (void_sale (complete_sale witTStateC6).1 1 2 "damaged").2 = Except.ok true ∧
    (void_sale (complete_sale witTStateC6).1 1 2 "damaged").1.pstate.products 1 =
      witTStateC6.pstate.products 1 :=
  ⟨witC6_hok,
   (C6_void_restores_stock.2.2 witTStateC6 witSaleC6 1 2 "damaged" rfl rfl
      (by decide) witState_stockInv witC6_hok).1,
   (C6_void_restores_stock.2.2 witTStateC6 witSaleC6 1 2 "damaged" rfl rfl
      (by decide) witState_stockInv witC6_hok).2.1 1⟩

/-- Row of the sales table as read by the daily-cash SQL aggregation. -/
structure SaleRow where
  paymentMethod : String
  totalAmount : ℚ
  cashAmount : ℚ
  cardAmount : ℚ
  voided : Bool
  deriving Repr, DecidableEq

/-- Row of the daily_cash table, mirroring the `DailyCash` dataclass of
core/sales/cash_management.py. -/
structure DailyCash where
  openingAmount : ℚ
  cashSales : ℚ
  cardSales : ℚ
  withdrawals : ℚ
  expectedClosing : ℚ
  actualClosing : Option ℚ := none
  variance : Option ℚ := none
  reconciled : Bool := false
  reconciledBy : Option ℕ := none
  notes : String := ""
  deriving Repr, DecidableEq

/-- State of one business date: its daily_cash row (none before start_day)
and the persisted sales of that date. -/
structure CState where
  daily : Option DailyCash
  sales : List SaleRow

/-- SQL cash_total of update_sales_totals: totals of non-voided sales paid
fully in cash. -/
def cash_total (rows : List SaleRow) : ℚ :=
  ((rows.filter (fun r => !r.voided)).map
    (fun r => if r.paymentMethod = "cash" then r.totalAmount else 0)).sum

/-- SQL card_total: totals of non-voided sales paid fully by card. -/
def card_total (rows : List SaleRow) : ℚ :=
  ((rows.filter (fun r => !r.voided)).map
    (fun r => if r.paymentMethod = "card" then r.totalAmount else 0)).sum

/-- SQL mixed_cash: cash portions of non-voided mixed-method sales. -/
def mixed_cash (rows : List SaleRow) : ℚ :=
  ((rows.filter (fun r => !r.voided)).map
    (fun r => if r.paymentMethod = "mixed" then r.cashAmount else 0)).sum

/-- SQL mixed_card: card portions of non-voided mixed-method sales. -/
def mixed_card (rows : List SaleRow) : ℚ :=
  ((rows.filter (fun r => !r.voided)).map
    (fun r => if r.paymentMethod = "mixed" then r.cardAmount else 0)).sum

/-- CashManager.update_sales_totals: always recompute the cash and card
totals from the persisted sales, then, when the day has a record, write
them together with the recomputed expected closing. -/
def update_sales_totals (c : CState) : CState × Bool :=
  let totalCash := cash_total c.sales + mixed_cash c.sales
  let totalCard := card_total c.sales + mixed_card c.sales
  match c.daily with
  | none => (c, false)
  | some d =>
    let expectedClosing := d.openingAmount + totalCash - d.withdrawals
    ({ c with daily := some { d with
        cashSales := totalCash, cardSales := totalCard,
        expectedClosing := expectedClosing } }, true)

/-- CashManager.start_day: raise when the date already has a record,
otherwise insert the opening row with expected closing equal to the
opening amount. -/
def start_day (c : CState) (openingAmount : ℚ) (uid : ℕ) :
    CState × Except String Bool :=
  match c.daily with
  | some _ => (c, Except.error "Day already started")
  | none =>
    ({ c with
        daily := some { openingAmount := openingAmount, cashSales := 0,
                        cardSales := 0, withdrawals := 0,
                        expectedClosing := openingAmount,
                        reconciledBy := some uid } }, Except.ok true)

/-- CashManager.record_withdrawal: raise without a day record, otherwise
add to withdrawals and recompute the expected closing. -/
def record_withdrawal (c : CState) (amount : ℚ) (uid : ℕ) :
    CState × Except String Bool :=
  match c.daily with
  | none => (c, Except.error "No daily cash record found")
  | some d =>
    let newWithdrawals := d.withdrawals + amount
    let newExpected := d.openingAmount + d.cashSales - newWithdrawals
    ({ c with daily := some { d with
        withdrawals := newWithdrawals, expectedClosing := newExpected } },
     Except.ok true)

/-- The dictionary returned by CashManager.reconcile_till. -/
structure ReconcileResult where
  success : Bool
  expected : ℚ
  actual : ℚ
  variance : ℚ
  status : String
  deriving Repr, DecidableEq

/-- CashManager.reconcile_till: first update the sales totals, then raise
without a day record or when already reconciled, otherwise write the
actual amount, variance and reconciliation metadata and return the
summary dictionary. -/
def reconcile_till (c : CState) (actualAmount : ℚ) (uid : ℕ) (notes : String) :
    CState × Except String ReconcileResult :=
  let c1 := (update_sales_totals c).1
  match c1.daily with
  | none => (c1, Except.error "No daily cash record found")
  | some d =>
    if d.reconciled then
      (c1, Except.error "Till already reconciled")
    else
      let variance := actualAmount - d.expectedClosing
      let status := if |variance| < 1 / 100 then "balanced"
        else if 0 < variance then "over" else "short"
      ({ c1 with daily := some { d with
          actualClosing := some actualAmount, variance := some variance,
          reconciled := true, reconciledBy := some uid, notes := notes } },
       Except.ok { success := true, expected := d.expectedClosing,
                   actual := actualAmount, variance := variance,
                   status := status })

/-- One operation touching the daily cash state; persistSale models a sale
of the date being persisted by the transaction layer. -/
inductive CashOp where
  | startDay (openingAmount : ℚ) (uid : ℕ)
  | updateTotals
  | withdraw (amount : ℚ) (uid : ℕ)
  | reconcile (actualAmount : ℚ) (uid : ℕ) (notes : String)
  | persistSale (row : SaleRow)

/-- Apply one cash operation, keeping the post-state also on failure. -/
def applyCashOp (c : CState) : CashOp → CState
  | .startDay a uid => (start_day c a uid).1
  | .updateTotals => (update_sales_totals c).1
  | .withdraw a uid => (record_withdrawal c a uid).1
  | .reconcile a uid n => (reconcile_till c a uid n).1
  | .persistSale row => { c with sales := c.sales ++ [row] }

/-- Run a sequence of cash operations. -/
def runCashOps (c : CState) : List CashOp → CState
  | [] => c
  | op :: rest => runCashOps (applyCashOp c op) rest

/-- The daily record always satisfies
expected_closing = opening_amount + cash_sales - withdrawals. -/
def CashInv (c : CState) : Prop :=
  ∀ d, c.daily = some d →
    d.expectedClosing = d.openingAmount + d.cashSales - d.withdrawals

theorem update_sales_totals_cashInv (c : CState) (h : CashInv c) :
    CashInv (update_sales_totals c).1 := by
  unfold update_sales_totals
  cases hd : c.daily with
  | none => simpa using h
  | some d =>
    intro d2 hd2
    simp only [Option.some.injEq] at hd2
    rw [← hd2]

theorem applyCashOp_cashInv (c : CState) (op : CashOp) (h : CashInv c) :
    CashInv (applyCashOp c op) := by
  cases op with
  | startDay a uid =>
    unfold applyCashOp start_day
    cases hd : c.daily with
    | some d => simpa using h
    | none =>
      intro d2 hd2
      simp only [Option.some.injEq] at hd2
      rw [← hd2]
      show a = a + 0 - 0
      ring
  | updateTotals => exact update_sales_totals_cashInv c h
  | withdraw a uid =>
    unfold applyCashOp record_withdrawal
    cases hd : c.daily with
    | none => simpa using h
    | some d =>
      intro d2 hd2
      simp only [Option.some.injEq] at hd2
      rw [← hd2]
  | reconcile a uid n =>
    unfold applyCashOp reconcile_till
    have h1 : CashInv (update_sales_totals c).1 := update_sales_totals_cashInv c h
    cases hd : (update_sales_totals c).1.daily with
    | none =>
      simp only [hd]
      exact h1
    | some d =>
      simp only [hd]
      by_cases hrec : d.reconciled
      · simp only [if_pos hrec]
        exact h1
      · simp only [if_neg hrec]
        intro d2 hd2
        simp only [Option.some.injEq] at hd2
        rw [← hd2]
        show d.expectedClosing = d.openingAmount + d.cashSales - d.withdrawals
        exact h1 d hd
  | persistSale row =>
    intro d2 hd2
    exact h d2 hd2

theorem runCashOps_cashInv (c : CState) (ops : List CashOp) (h : CashInv c) :
    CashInv (runCashOps c ops) := by
  induction ops generalizing c with
  | nil => exact h
  | cons op rest ih => exact ih _ (applyCashOp_cashInv c op h)

theorem reconcile_status_spec (v : ℚ) :
    ((if |v| < 1 / 100 then "balanced" else if 0 < v then "over" else "short") =
        "balanced" ↔ |v| < 1 / 100) ∧
    ((if |v| < 1 / 100 then "balanced" else if 0 < v then "over" else "short") =
        "over" ↔ 1 / 100 ≤ v) ∧
    ((if |v| < 1 / 100 then "balanced" else if 0 < v then "over" else "short") =
        "short" ↔ v ≤ -(1 / 100)) ∧
    ((if |v| < 1 / 100 then "balanced" else if 0 < v then "over" else "short") =
        "over" → 0 < v) ∧
    ((if |v| < 1 / 100 then "balanced" else if 0 < v then "over" else "short") =
        "short" → v < 0) := by
  by_cases hb : |v| < 1 / 100
  · rw [if_pos hb]
    have h1 : v < 1 / 100 := lt_of_le_of_lt (le_abs_self v) hb
    have h2 : -(1 / 100) < v := lt_of_lt_of_le (neg_lt_neg hb) (neg_abs_le v)
    refine ⟨iff_of_true rfl hb, iff_of_false (by decide) (not_le.mpr h1),
      iff_of_false (by decide) (not_le.mpr h2), ?_, ?_⟩
    · intro h
      exact absurd h (by decide)
    · intro h
      exact absurd h (by decide)
  · rw [if_neg hb]
    have hge : 1 / 100 ≤ |v| := not_lt.mp hb
    by_cases hv : 0 < v
    · rw [if_pos hv]
      have habs : |v| = v := abs_of_pos hv
      have h100 : 1 / 100 ≤ v := habs ▸ hge
      refine ⟨iff_of_false (by decide) hb, iff_of_true rfl h100,
        iff_of_false (by decide) (not_le.mpr (by linarith)), fun _ => hv, ?_⟩
      intro h
      exact absurd h (by decide)
    · rw [if_neg hv]
      have hle : v ≤ 0 := not_lt.mp hv
      have habs : |v| = -v := abs_of_nonpos hle
      have h100 : v ≤ -(1 / 100) := by
        rw [habs] at hge
        linarith
      have hneg : v < 0 := by linarith
      refine ⟨iff_of_false (by decide) hb,
        iff_of_false (by decide) (not_le.mpr (by linarith)),
        iff_of_true rfl h100, ?_, fun _ => hneg⟩
      intro h
      exact absurd h (by decide)

/-- C9: for a started day the record always satisfies
expected_closing = opening + cash_sales - withdrawals across any sequence
of cash operations; update_sales_totals re-derives the totals from the
non-voided sales (cash totals plus mixed cash portions, and likewise for
card); and reconcile_till on an unreconciled started day recomputes the
totals first, returns variance = actual - expected over the recomputed
expected, classifies balanced exactly when the absolute variance is below
0.01, over only when the variance is positive (exactly when it is at
least 0.01), short only when it is negative (exactly when it is at most
-0.01), and marks the day reconciled. -/
theorem C9_daily_cash_reconciliation :
    (∀ (c : CState) (ops : List CashOp), CashInv c → CashInv (runCashOps c ops)) ∧
    (∀ (c : CState) (d : DailyCash), c.daily = some d →
      ∃ d2, (update_sales_totals c).1.daily = some d2 ∧
        d2.cashSales = cash_total c.sales + mixed_cash c.sales ∧
        d2.cardSales = card_total c.sales + mixed_card c.sales ∧
        d2.openingAmount = d.openingAmount ∧ d2.withdrawals = d.withdrawals ∧
        d2.expectedClosing = d.openingAmount +
          (cash_total c.sales + mixed_cash c.sales) - d.withdrawals) ∧
    (∀ (c : CState) (d : DailyCash) (a : ℚ) (uid : ℕ) (n : String),
      c.daily = some d → d.reconciled = false →
      ∃ d2 r, (update_sales_totals c).1.daily = some d2 ∧
        (reconcile_till c a uid n).2 = Except.ok r ∧
        r.expected = d2.expectedClosing ∧ r.actual = a ∧
        r.variance = a - d2.expectedClosing ∧
        (r.status = "balanced" ↔ |r.variance| < 1 / 100) ∧
        (r.status = "over" → 0 < r.variance) ∧
        (r.status = "short" → r.variance < 0) ∧
        (r.status = "over" ↔ 1 / 100 ≤ r.variance) ∧
        (r.status = "short" ↔ r.variance ≤ -(1 / 100)) ∧
        (∃ d3, (reconcile_till c a uid n).1.daily = some d3 ∧
          d3.reconciled = true ∧ d3.actualClosing = some a ∧
          d3.variance = some (a - d2.expectedClosing) ∧
          d3.expectedClosing = d2.expectedClosing ∧
          d3.cashSales = d2.cashSales)) := by
  refine ⟨runCashOps_cashInv, ?_, ?_⟩
  · intro c d h
    have hu : (update_sales_totals c).1 = { c with
        daily := some { d with
          cashSales := cash_total c.sales + mixed_cash c.sales,
          cardSales := card_total c.sales + mixed_card c.sales,
          expectedClosing := d.openingAmount +
            (cash_total c.sales + mixed_cash c.sales) - d.withdrawals } } := by
      simp [update_sales_totals, h]
    exact ⟨{ d with
        cashSales := cash_total c.sales + mixed_cash c.sales,
        cardSales := card_total c.sales + mixed_card c.sales,
        expectedClosing := d.openingAmount +
          (cash_total c.sales + mixed_cash c.sales) - d.withdrawals },
      by rw [hu], rfl, rfl, rfl, rfl, rfl⟩
  · intro c d a uid n h hrec
    have hu : (update_sales_totals c).1 = { c with
        daily := some { d with
          cashSales := cash_total c.sales + mixed_cash c.sales,
          cardSales := card_total c.sales + mixed_card c.sales,
          expectedClosing := d.openingAmount +
            (cash_total c.sales + mixed_cash c.sales) - d.withdrawals } } := by
      simp [update_sales_totals, h]
    refine ⟨{ d with
        cashSales := cash_total c.sales + mixed_cash c.sales,
        cardSales := card_total c.sales + mixed_card c.sales,
        expectedClosing := d.openingAmount +
          (cash_total c.sales + mixed_cash c.sales) - d.withdrawals },
      { success := true,
        expected := d.openingAmount +
          (cash_total c.sales + mixed_cash c.sales) - d.withdrawals,
        actual := a,
        variance := a - (d.openingAmount +
          (cash_total c.sales + mixed_cash c.sales) - d.withdrawals),
        status := if |a - (d.openingAmount +
            (cash_total c.sales + mixed_cash c.sales) - d.withdrawals)| < 1 / 100
          then "balanced"
          else if 0 < a - (d.openingAmount +
            (cash_total c.sales + mixed_cash c.sales) - d.withdrawals)
          then "over" else "short" },
      by rw [hu], ?_, rfl, rfl, rfl, ?_, ?_, ?_, ?_, ?_, ?_⟩
    · show (reconcile_till c a uid n).2 = Except.ok _
      simp [reconcile_till, hu, hrec]
    · exact (reconcile_status_spec _).1
    · exact (reconcile_status_spec _).2.2.2.1
    · exact (reconcile_status_spec _).2.2.2.2
    · exact (reconcile_status_spec _).2.1
    · exact (reconcile_status_spec _).2.2.1
    · refine ⟨{ d with
          cashSales := cash_total c.sales + mixed_cash c.sales,
          cardSales := card_total c.sales + mixed_card c.sales,
          expectedClosing := d.openingAmount +
            (cash_total c.sales + mixed_cash c.sales) - d.withdrawals,
          actualClosing := some a,
          variance := some (a - (d.openingAmount +
            (cash_total c.sales + mixed_cash c.sales) - d.withdrawals)),
          reconciled := true, reconciledBy := some uid, notes := n },
        ?_, rfl, rfl, rfl, rfl, rfl⟩
      show (reconcile_till c a uid n).1.daily = some _
      simp [reconcile_till, hu, hrec]

/-- A daily record already reconciled, with stale totals: the stored
cash_sales are 5, but the persisted sales of the date sum to 7. -/
def cexDaily : DailyCash :=
  { openingAmount := 100, cashSales := 5, cardSales := 0, withdrawals := 0,
    expectedClosing := 105, actualClosing := some 105, variance := some 0,
    reconciled := true, reconciledBy := some 1, notes := "" }

/-- The reconciled state with one non-voided cash sale of 7. -/
def cexCState : CState :=
  { daily := some cexDaily,
    sales := [{ paymentMethod := "cash", totalAmount := 7, cashAmount := 7,
                cardAmount := 0, voided := false }] }

/-- C3 counterexample: reconciling the already-reconciled date fails as
claimed, but it is not a no-op: the cash_sales field of the daily record
changes from 5 to 7 during the failed call. -/
theorem C3_reconcile_counterexample :
    (reconcile_till cexCState 105 1 "").2 = Except.error "Till already reconciled" ∧
    Option.map DailyCash.cashSales ((reconcile_till cexCState 105 1 "").1.daily) =
      some 7 ∧
    Option.map DailyCash.cashSales cexCState.daily = some 5 ∧ (7 : ℚ) ≠ 5 := by
  have hu : (update_sales_totals cexCState).1 = { cexCState with
      daily := some { cexDaily with
        cashSales := 7, cardSales := 0, expectedClosing := 107 } } := by
    have h1 : cash_total cexCState.sales = 7 := by
      norm_num [cash_total, cexCState] <;> decide
    have h2 : card_total cexCState.sales = 0 := by
      norm_num [card_total, cexCState] <;> decide
    have h3 : mixed_cash cexCState.sales = 0 := by
      norm_num [mixed_cash, cexCState] <;> decide
    have h4 : mixed_card cexCState.sales = 0 := by
      norm_num [mixed_card, cexCState] <;> decide
    simp only [update_sales_totals, h1, h2, h3, h4]
    norm_num [cexCState, cexDaily]
  have hrc : reconcile_till cexCState 105 1 "" =
      ((update_sales_totals cexCState).1, Except.error "Till already reconciled") := by
    simp [reconcile_till, hu, cexDaily]
  refine ⟨by rw [hrc], ?_, rfl, by norm_num⟩
  rw [hrc, hu]
  rfl

/-- C3 amended: reconcile_till on an already-reconciled date raises
AlreadyReconciled and leaves the reconciliation fields (reconciled flag,
actual closing, stored variance, reconciling user, notes) and the opening
amount and withdrawals unchanged, but first recomputes cash_sales,
card_sales and expected_closing from the persisted sales of the date, so
these three fields may change during the failed call. -/
theorem C3_reconcile_already_reconciled :
    ∀ (c : CState) (d : DailyCash) (a : ℚ) (uid : ℕ) (n : String),
      c.daily = some d → d.reconciled = true →
      reconcile_till c a uid n =
        ((update_sales_totals c).1, Except.error "Till already reconciled") ∧
      ∃ d2, (update_sales_totals c).1.daily = some d2 ∧
        d2.reconciled = true ∧ d2.actualClosing = d.actualClosing ∧
        d2.variance = d.variance ∧ d2.reconciledBy = d.reconciledBy ∧
        d2.notes = d.notes ∧ d2.openingAmount = d.openingAmount ∧
        d2.withdrawals = d.withdrawals ∧
        d2.cashSales = cash_total c.sales + mixed_cash c.sales ∧
        d2.cardSales = card_total c.sales + mixed_card c.sales ∧
        d2.expectedClosing = d.openingAmount +
          (cash_total c.sales + mixed_cash c.sales) - d.withdrawals := by
  intro c d a uid n h hrec
  have hu : (update_sales_totals c).1 = { c with
      daily := some { d with
        cashSales := cash_total c.sales + mixed_cash c.sales,
        cardSales := card_total c.sales + mixed_card c.sales,
        expectedClosing := d.openingAmount +
          (cash_total c.sales + mixed_cash c.sales) - d.withdrawals } } := by
    simp [update_sales_totals, h]
  constructor
  · rw [hu]
    simp [reconcile_till, hu, hrec]
  · exact ⟨{ d with
      cashSales := cash_total c.sales + mixed_cash c.sales,
      cardSales := card_total c.sales + mixed_card c.sales,
      expectedClosing := d.openingAmount +
        (cash_total c.sales + mixed_cash c.sales) - d.withdrawals },
      by rw [hu], hrec, rfl, rfl, rfl, rfl, rfl, rfl, rfl, rfl, rfl⟩

/-- C3 witness: the amended theorem applied to the concrete reconciled
state. -/
theorem C3_reconcile_already_reconciled_witness :
    cexCState.daily = some cexDaily ∧ cexDaily.reconciled = true ∧
    reconcile_till cexCState 105 1 "" =
      ((update_sales_totals cexCState).1, Except.error "Till already reconciled") :=
  ⟨rfl, rfl,
    (C3_reconcile_already_reconciled cexCState cexDaily 105 1 "" rfl rfl).1⟩

/-- Scenario E daily record: opening 100, withdrawal 20 recorded, totals
not yet refreshed. -/
def scenEDaily : DailyCash :=
  { openingAmount := 100, cashSales := 0, cardSales := 0, withdrawals := 20,
    expectedClosing := 80, reconciledBy := some 1 }

/-- Scenario E state: the started day plus one cash sale of 50. -/
def scenECState : CState :=
  { daily := some scenEDaily,
    sales := [{ paymentMethod := "cash", totalAmount := 50, cashAmount := 50,
                cardAmount := 0, voided := false }] }

/-- C9 witness: scenario E, reconciling the concrete day at actual 130
returns expected 130, variance 0 and status balanced. -/
theorem C9_daily_cash_reconciliation_witness :
    scenECState.daily = some scenEDaily ∧ scenEDaily.reconciled = false ∧
    ∃ r, (reconcile_till scenECState 130 1 "").2 = Except.ok r ∧
      r.expected = 130 ∧ r.variance = 0 ∧ r.status = "balanced" := by
  obtain ⟨d2, r, hd2, hr2, hexp, hact, hvar, hbal, hover, hshort, hoveri, hshorti,
    hstate⟩ := C9_daily_cash_reconciliation.2.2 scenECState scenEDaily 130 1 "" rfl rfl
  have hd2e : d2.expectedClosing = 130 := by
    have hu : (update_sales_totals scenECState).1.daily = some { scenEDaily with
        cashSales := 50, cardSales := 0, expectedClosing := 130 } := by
      have h1 : cash_total scenECState.sales = 50 := by
        norm_num [cash_total, scenECState] <;> decide
      have h2 : card_total scenECState.sales = 0 := by
        norm_num [card_total, scenECState] <;> decide
      have h3 : mixed_cash scenECState.sales = 0 := by
        norm_num [mixed_cash, scenECState] <;> decide
      have h4 : mixed_card scenECState.sales = 0 := by
        norm_num [mixed_card, scenECState] <;> decide
      simp only [update_sales_totals, h1, h2, h3, h4]
      norm_num [scenECState, scenEDaily]
    rw [hu] at hd2
    injection hd2 with hd2i
    rw [← hd2i]
  have hv0 : r.variance = 0 := by
    rw [hvar, hd2e]
    norm_num
  refine ⟨rfl, rfl, r, hr2, ?_, hv0, ?_⟩
  · rw [hexp, hd2e]
  · exact hbal.mpr (by rw [hv0]; norm_num)

end KoekaShop
